import Mathlib

/-!
Verification development for the CryptoService core of the aries-vcx
repository (`libvdrtools/src/services/crypto/mod.rs`).

Rust byte vectors and strings are modelled as lists of naturals (each byte
below 256 where it matters), fallible Rust functions as `Except` over the
Indy error kinds.  External collaborators that the service calls but whose
sources are not part of the analysed tree (the base58 / base64 / hex codecs,
the `DidValue` constructor, the verkey splitting helpers, the ed25519 suite
and the ChaCha20-Poly1305 AEAD primitive) are modelled from the
specification, as documented on each definition.
-/

namespace VcxCrypto

/-- Rust byte vectors (`Vec<u8>` / `&[u8]`), each element a byte value. -/
abbrev RBytes := List Nat

/-- Rust strings (`String` / `&str`), modelled by their UTF-8 byte sequence. -/
abbrev RStr := List Nat

/-- Error kinds of `IndyErrorKind` that the crypto service raises. -/
inductive IndyErrorKind where
  | InvalidStructure
  | UnknownCrypto
  | InvalidState
  deriving Repr, DecidableEq

/-- Rust `IndyResult<T>`, keeping only the error kind of the `IndyError`. -/
abbrev IndyResult (α : Type) := Except IndyErrorKind α

/-! ### Positional number system helpers

Executable little-endian digit expansion, bridged to Mathlib's `Nat.digits`
so that its round-trip lemmas become available. -/

/-- Fuel-driven little-endian base-`b` digit expansion; with fuel at least
`n` it agrees with `Nat.digits b n`. -/
def natDigitsAux (b : Nat) : Nat → Nat → List Nat
  | 0, _ => []
  | _ + 1, 0 => []
  | fuel + 1, n + 1 => (n + 1) % b :: natDigitsAux b fuel ((n + 1) / b)

/-- Little-endian base-`b` digits of a natural number, kernel-executable. -/
def natDigits (b n : Nat) : List Nat := natDigitsAux b n n

theorem natDigitsAux_eq_digits (b : Nat) (hb : 2 ≤ b) :
    ∀ fuel n, n ≤ fuel → natDigitsAux b fuel n = Nat.digits b n := by
  intro fuel
  induction fuel with
  | zero =>
    intro n hn
    have : n = 0 := Nat.le_zero.mp hn
    subst this
    simp [natDigitsAux]
  | succ f ih =>
    intro n hn
    match n with
    | 0 => simp [natDigitsAux]
    | m + 1 =>
      rw [natDigitsAux, Nat.digits_def' (by omega : 1 < b) (Nat.succ_pos m)]
      congr 1
      apply ih
      have h := Nat.div_lt_self (Nat.succ_pos m) (show 1 < b by omega)
      simp only [Nat.succ_eq_add_one] at h
      omega

theorem natDigits_eq_digits (b n : Nat) (hb : 2 ≤ b) :
    natDigits b n = Nat.digits b n :=
  natDigitsAux_eq_digits b hb n n le_rfl

/-- Big-endian evaluation of a digit list in base `b`, reading digits the way
the Rust codecs read bytes (most significant first). -/
def beVal (b : Nat) (ds : List Nat) : Nat := ds.foldl (fun a d => a * b + d) 0

theorem foldr_eq_ofDigits (b : Nat) :
    ∀ L : List Nat, L.foldr (fun x y => y * b + x) 0 = Nat.ofDigits b L := by
  intro L
  induction L with
  | nil => simp [Nat.ofDigits_nil]
  | cons d tl ih => simp [Nat.ofDigits_cons, ih]; ring

theorem beVal_reverse (b : Nat) (L : List Nat) :
    beVal b L.reverse = Nat.ofDigits b L := by
  rw [beVal, List.foldl_reverse]
  exact foldr_eq_ofDigits b L

theorem beVal_eq_ofDigits_reverse (b : Nat) (L : List Nat) :
    beVal b L = Nat.ofDigits b L.reverse := by
  have := beVal_reverse b L.reverse
  simpa using this

theorem beVal_pos_aux (b : Nat) (hb : 0 < b) :
    ∀ (rr : List Nat) (a : Nat), 0 < a →
      0 < rr.foldl (fun x d => x * b + d) a := by
  intro rr
  induction rr with
  | nil => intro a ha; simpa using ha
  | cons d tl ih =>
    intro a ha
    simp only [List.foldl_cons]
    exact ih _ (by positivity)

theorem beVal_pos (b : Nat) (hb : 0 < b) (r0 : Nat) (rr : List Nat)
    (h0 : r0 ≠ 0) : 0 < beVal b (r0 :: rr) := by
  have : 0 < r0 := Nat.pos_of_ne_zero h0
  simp only [beVal, List.foldl_cons, Nat.zero_mul, Nat.zero_add]
  exact beVal_pos_aux b hb rr r0 this

/-! ### Option-valued elementwise map (used by the decoders) -/

/-- Elementwise fallible map over a list, failing if any element fails. -/
def mapOpt (f : Nat → Option Nat) : List Nat → Option (List Nat)
  | [] => some []
  | x :: xs =>
    match f x, mapOpt f xs with
    | some y, some ys => some (y :: ys)
    | _, _ => none

theorem mapOpt_map_of_inverse (f : Nat → Nat) (g : Nat → Option Nat)
    (L : List Nat) (P : Nat → Prop) (hmem : ∀ d ∈ L, P d)
    (hfg : ∀ d, P d → g (f d) = some d) :
    mapOpt g (L.map f) = some L := by
  induction L with
  | nil => simp [mapOpt]
  | cons d tl ih =>
    have hd := hfg d (hmem d (List.mem_cons_self d tl))
    have htl := ih (fun x hx => hmem x (List.mem_cons_of_mem d hx))
    simp only [List.map_cons, mapOpt, hd, htl]

/-! ### Base58 codec

Modelled from the spec: the service uses an external base58 crate
(`utils/crypto/base58`, not under the analysed sources).  Standard Bitcoin
base58: leading zero bytes encode as leading `1` characters, the remainder
is the big-endian base-58 expansion over the 58-character alphabet. -/

/-- ASCII codes of the base58 alphabet `123456789A..HJ..NP..Za..km..z`. -/
def base58Alphabet : List Nat :=
  [49, 50, 51, 52, 53, 54, 55, 56, 57,
   65, 66, 67, 68, 69, 70, 71, 72, 74, 75, 76, 77, 78,
   80, 81, 82, 83, 84, 85, 86, 87, 88, 89, 90,
   97, 98, 99, 100, 101, 102, 103, 104, 105, 106, 107,
   109, 110, 111, 112, 113, 114, 115, 116, 117, 118, 119, 120, 121, 122]

/-- Character (ASCII code) of a base58 digit value. -/
def b58Char (d : Nat) : Nat := base58Alphabet.getD d 0

/-- Digit value of a base58 character, `none` for characters outside the
alphabet. -/
def b58Val (c : Nat) : Option Nat := base58Alphabet.findIdx? (fun a => a = c)

theorem b58Val_b58Char : ∀ d < 58, b58Val (b58Char d) = some d := by decide

theorem b58Char_ne_one : ∀ d < 58, d ≠ 0 → b58Char d ≠ 49 := by decide

theorem b58Char_lt : ∀ d < 58, b58Char d < 256 := by decide

/-- Modelled from the spec: `ToBase58` encoding of a byte vector. -/
def encode58 (bs : RBytes) : RStr :=
  let z := (bs.takeWhile (fun b => b == 0)).length
  let rest := bs.dropWhile (fun b => b == 0)
  List.replicate z 49 ++ ((natDigits 58 (beVal 256 rest)).reverse.map b58Char)

/-- Modelled from the spec: `FromBase58` decoding of a string, `none` on
characters outside the alphabet. -/
def decode58 (s : RStr) : Option RBytes :=
  let z := (s.takeWhile (fun c => c == 49)).length
  let rest := s.dropWhile (fun c => c == 49)
  match mapOpt b58Val rest with
  | none => none
  | some ds => some (List.replicate z 0 ++ (natDigits 256 (beVal 58 ds)).reverse)

theorem dropWhile_head_false (p : Nat → Bool) :
    ∀ (l : List Nat) (x : Nat) (xs : List Nat),
      l.dropWhile p = x :: xs → p x = false := by
  intro l
  induction l with
  | nil => intro x xs h; simp [List.dropWhile] at h
  | cons a tl ih =>
    intro x xs h
    rw [List.dropWhile_cons] at h
    cases hp : p a
    · rw [hp] at h
      simp only [Bool.false_eq_true, if_false, List.cons.injEq] at h
      rw [← h.1]
      exact hp
    · rw [hp] at h
      simp only [if_true] at h
      exact ih x xs h

theorem takeWhile_replicate_append (p : Nat → Bool) (c : Nat)
    (hp : p c = true) (z : Nat) (l : List Nat)
    (hl : ∀ (x : Nat) (xs : List Nat), l = x :: xs → p x = false) :
    (List.replicate z c ++ l).takeWhile p = List.replicate z c ∧
      (List.replicate z c ++ l).dropWhile p = l := by
  induction z with
  | zero =>
    simp only [List.replicate_zero, List.nil_append]
    cases l with
    | nil => simp
    | cons x xs =>
      have hx := hl x xs rfl
      simp [List.takeWhile_cons, List.dropWhile_cons, hx]
  | succ n ih =>
    simp only [List.replicate_succ, List.cons_append, List.takeWhile_cons,
      List.dropWhile_cons, hp, if_true]
    exact ⟨by rw [ih.1], ih.2⟩

theorem decode58_encode58 (bs : RBytes) (hb : ∀ b ∈ bs, b < 256) :
    decode58 (encode58 bs) = some bs := by
  have hsplit : bs.takeWhile (fun b => b == 0) ++ bs.dropWhile (fun b => b == 0) = bs :=
    List.takeWhile_append_dropWhile _ bs
  have htake : bs.takeWhile (fun b => b == 0) =
      List.replicate (bs.takeWhile (fun b => b == 0)).length 0 := by
    apply List.eq_replicate_iff.mpr
    refine ⟨rfl, ?_⟩
    intro x hx
    have hmem := List.mem_takeWhile_imp hx
    simpa using hmem
  cases hr : bs.dropWhile (fun b => b == 0) with
  | nil =>
    have henc : encode58 bs =
        List.replicate (bs.takeWhile (fun b => b == 0)).length 49 := by
      simp [encode58, hr, beVal, natDigits, natDigitsAux]
    rw [henc]
    have hdec := takeWhile_replicate_append (fun c => c == 49) 49 (by simp)
      (bs.takeWhile (fun b => b == 0)).length []
      (fun x xs h => by simp at h)
    simp only [List.append_nil] at hdec
    simp only [decode58, hdec.1, hdec.2, mapOpt, List.length_replicate]
    simp only [beVal, List.foldl_nil, natDigits, natDigitsAux, List.reverse_nil,
      List.append_nil, Option.some.injEq]
    rw [hr, List.append_nil] at hsplit
    rw [← htake, hsplit]
  | cons r0 rr =>
    have hr0 : r0 ≠ 0 := by
      have := dropWhile_head_false (fun b => b == 0) bs r0 rr hr
      simpa using this
    have hrmem : ∀ x ∈ r0 :: rr, x < 256 := by
      intro x hx
      apply hb
      rw [← hsplit, hr]
      exact List.mem_append_right _ hx
    have hNpos : 0 < beVal 256 (r0 :: rr) := beVal_pos 256 (by norm_num) r0 rr hr0
    have hds : natDigits 58 (beVal 256 (r0 :: rr)) =
        Nat.digits 58 (beVal 256 (r0 :: rr)) := natDigits_eq_digits _ _ (by norm_num)
    have hdsne : Nat.digits 58 (beVal 256 (r0 :: rr)) ≠ [] :=
      Nat.digits_ne_nil_iff_ne_zero.mpr (by omega)
    have hdslt : ∀ d ∈ Nat.digits 58 (beVal 256 (r0 :: rr)), d < 58 :=
      fun d hd => Nat.digits_lt_base (by norm_num) hd
    have hlast : (Nat.digits 58 (beVal 256 (r0 :: rr))).getLast hdsne ≠ 0 :=
      Nat.getLast_digit_ne_zero 58 (by omega)
    have henc : encode58 bs =
        List.replicate (bs.takeWhile (fun b => b == 0)).length 49 ++
          ((Nat.digits 58 (beVal 256 (r0 :: rr))).reverse.map b58Char) := by
      simp only [encode58, hr, hds]
    have hheadD : ∀ (x : Nat) (xs : List Nat),
        (Nat.digits 58 (beVal 256 (r0 :: rr))).reverse.map b58Char = x :: xs →
          (x == 49) = false := by
      intro x xs hx
      have hhead : ((Nat.digits 58 (beVal 256 (r0 :: rr))).reverse.map b58Char).head? =
          some x := by rw [hx]; rfl
      rw [List.head?_map, List.head?_reverse] at hhead
      have hgl : (Nat.digits 58 (beVal 256 (r0 :: rr))).getLast? =
          some ((Nat.digits 58 (beVal 256 (r0 :: rr))).getLast hdsne) :=
        List.getLast?_eq_getLast _ hdsne
      rw [hgl] at hhead
      simp only [Option.map_some', Option.some.injEq] at hhead
      have hlt : (Nat.digits 58 (beVal 256 (r0 :: rr))).getLast hdsne < 58 :=
        hdslt _ (List.getLast_mem hdsne)
      have hne49 : x ≠ 49 := by
        rw [← hhead]
        exact b58Char_ne_one _ hlt hlast
      simpa using hne49
    have hdec := takeWhile_replicate_append (fun c => c == 49) 49 (by simp)
      (bs.takeWhile (fun b => b == 0)).length
      ((Nat.digits 58 (beVal 256 (r0 :: rr))).reverse.map b58Char) hheadD
    have hmap : mapOpt b58Val
        ((Nat.digits 58 (beVal 256 (r0 :: rr))).reverse.map b58Char) =
          some (Nat.digits 58 (beVal 256 (r0 :: rr))).reverse := by
      apply mapOpt_map_of_inverse b58Char b58Val _ (fun d => d < 58)
      · intro d hd
        exact hdslt d (List.mem_reverse.mp hd)
      · intro d hd
        exact b58Val_b58Char d hd
    have hval : beVal 58 (Nat.digits 58 (beVal 256 (r0 :: rr))).reverse =
        beVal 256 (r0 :: rr) := by
      rw [beVal_reverse]
      exact Nat.ofDigits_digits 58 _
    have hback : Nat.digits 256 (beVal 256 (r0 :: rr)) = (r0 :: rr).reverse := by
      rw [beVal_eq_ofDigits_reverse]
      apply Nat.digits_ofDigits 256 (by norm_num)
      · intro l hl
        exact hrmem l (List.mem_reverse.mp hl)
      · intro h
        have h1 : (r0 :: rr).reverse.getLast? = some ((r0 :: rr).reverse.getLast h) :=
          List.getLast?_eq_getLast _ h
        rw [List.getLast?_reverse] at h1
        simp only [List.head?_cons, Option.some.injEq] at h1
        rw [← h1]
        exact hr0
    rw [henc]
    simp only [decode58, hdec.1, hdec.2, hmap, hval, List.length_replicate]
    rw [natDigits_eq_digits _ _ (by norm_num), hback, List.reverse_reverse]
    rw [hr] at hsplit
    rw [← htake, hsplit]

/-! ### Base64 codecs

Modelled from the spec: the AEAD helpers expose their fields base64url
encoded, and seeds may arrive base64 encoded (the codec crate is not under
the analysed sources). -/

/-- ASCII codes of the base64url alphabet `A..Za..z0..9-_`. -/
def base64urlAlphabet : List Nat :=
  [65, 66, 67, 68, 69, 70, 71, 72, 73, 74, 75, 76, 77, 78, 79, 80, 81, 82,
   83, 84, 85, 86, 87, 88, 89, 90,
   97, 98, 99, 100, 101, 102, 103, 104, 105, 106, 107, 108, 109, 110, 111,
   112, 113, 114, 115, 116, 117, 118, 119, 120, 121, 122,
   48, 49, 50, 51, 52, 53, 54, 55, 56, 57, 45, 95]

/-- ASCII codes of the standard base64 alphabet `A..Za..z0..9+/`. -/
def base64stdAlphabet : List Nat :=
  [65, 66, 67, 68, 69, 70, 71, 72, 73, 74, 75, 76, 77, 78, 79, 80, 81, 82,
   83, 84, 85, 86, 87, 88, 89, 90,
   97, 98, 99, 100, 101, 102, 103, 104, 105, 106, 107, 108, 109, 110, 111,
   112, 113, 114, 115, 116, 117, 118, 119, 120, 121, 122,
   48, 49, 50, 51, 52, 53, 54, 55, 56, 57, 43, 47]

/-- Character of a base64url sextet value. -/
def b64uChar (v : Nat) : Nat := base64urlAlphabet.getD v 0

/-- Sextet value of a base64url character. -/
def b64uVal (c : Nat) : Option Nat := base64urlAlphabet.findIdx? (fun a => a = c)

/-- Sextet value of a standard base64 character. -/
def b64sVal (c : Nat) : Option Nat := base64stdAlphabet.findIdx? (fun a => a = c)

theorem b64uVal_b64uChar : ∀ v < 64, b64uVal (b64uChar v) = some v := by decide

/-- Sextet stream of a byte vector (big-endian within each 24-bit group). -/
def sextetsOfBytes : List Nat → List Nat
  | b0 :: b1 :: b2 :: rest =>
    b0 / 4 :: ((b0 % 4) * 16 + b1 / 16) :: ((b1 % 16) * 4 + b2 / 64) ::
      (b2 % 64) :: sextetsOfBytes rest
  | [b0, b1] => [b0 / 4, (b0 % 4) * 16 + b1 / 16, (b1 % 16) * 4]
  | [b0] => [b0 / 4, (b0 % 4) * 16]
  | [] => []

/-- Byte vector of a sextet stream; a trailing group of one sextet is
malformed. -/
def bytesOfSextets : List Nat → Option (List Nat)
  | s0 :: s1 :: s2 :: s3 :: rest =>
    match bytesOfSextets rest with
    | some r => some ((s0 * 4 + s1 / 16) :: ((s1 % 16) * 16 + s2 / 4) ::
        ((s2 % 4) * 64 + s3) :: r)
    | none => none
  | [s0, s1, s2] => some [s0 * 4 + s1 / 16, (s1 % 16) * 16 + s2 / 4]
  | [s0, s1] => some [s0 * 4 + s1 / 16]
  | [_] => none
  | [] => some []

/-- Modelled from the spec: `base64::encode_urlsafe` (unpadded base64url). -/
def encode_urlsafe (bs : RBytes) : RStr := (sextetsOfBytes bs).map b64uChar

/-- Modelled from the spec: `base64::decode_urlsafe`, the decoder accepting
what the encoder produces; `none` on foreign characters or a trailing group
of one character. -/
def decode_urlsafe (s : RStr) : Option RBytes :=
  match mapOpt b64uVal s with
  | some vs => bytesOfSextets vs
  | none => none

theorem sextetsOfBytes_lt (bs : List Nat) (hb : ∀ b ∈ bs, b < 256) :
    ∀ v ∈ sextetsOfBytes bs, v < 64 := by
  induction bs using sextetsOfBytes.induct with
  | case1 b0 b1 b2 rest ih =>
    have h0 : b0 < 256 := hb b0 (by simp)
    have h1 : b1 < 256 := hb b1 (by simp)
    have h2 : b2 < 256 := hb b2 (by simp)
    have hr := ih (fun x hx => hb x (by simp [hx]))
    intro v hv
    simp only [sextetsOfBytes, List.mem_cons] at hv
    rcases hv with h | h | h | h | h
    · omega
    · omega
    · omega
    · omega
    · exact hr v h
  | case2 b0 b1 =>
    have h0 : b0 < 256 := hb b0 (by simp)
    have h1 : b1 < 256 := hb b1 (by simp)
    intro v hv
    simp only [sextetsOfBytes, List.mem_cons, List.not_mem_nil, or_false] at hv
    rcases hv with h | h | h <;> omega
  | case3 b0 =>
    have h0 : b0 < 256 := hb b0 (by simp)
    intro v hv
    simp only [sextetsOfBytes, List.mem_cons, List.not_mem_nil, or_false] at hv
    rcases hv with h | h <;> omega
  | case4 =>
    intro v hv
    simp [sextetsOfBytes] at hv

theorem bytesOfSextets_sextetsOfBytes (bs : List Nat) (hb : ∀ b ∈ bs, b < 256) :
    bytesOfSextets (sextetsOfBytes bs) = some bs := by
  induction bs using sextetsOfBytes.induct with
  | case1 b0 b1 b2 rest ih =>
    have h0 : b0 < 256 := hb b0 (by simp)
    have h1 : b1 < 256 := hb b1 (by simp)
    have h2 : b2 < 256 := hb b2 (by simp)
    have hr := ih (fun x hx => hb x (by simp [hx]))
    simp only [sextetsOfBytes, bytesOfSextets, hr]
    have e0 : b0 / 4 * 4 + ((b0 % 4) * 16 + b1 / 16) / 16 = b0 := by omega
    have e1 : ((b0 % 4) * 16 + b1 / 16) % 16 * 16 + ((b1 % 16) * 4 + b2 / 64) / 4 = b1 := by
      omega
    have e2 : ((b1 % 16) * 4 + b2 / 64) % 4 * 64 + b2 % 64 = b2 := by omega
    rw [e0, e1, e2]
  | case2 b0 b1 =>
    have h0 : b0 < 256 := hb b0 (by simp)
    have h1 : b1 < 256 := hb b1 (by simp)
    simp only [sextetsOfBytes, bytesOfSextets]
    have e0 : b0 / 4 * 4 + ((b0 % 4) * 16 + b1 / 16) / 16 = b0 := by omega
    have e1 : ((b0 % 4) * 16 + b1 / 16) % 16 * 16 + (b1 % 16) * 4 / 4 = b1 := by omega
    rw [e0, e1]
  | case3 b0 =>
    have h0 : b0 < 256 := hb b0 (by simp)
    simp only [sextetsOfBytes, bytesOfSextets]
    have e0 : b0 / 4 * 4 + (b0 % 4) * 16 / 16 = b0 := by omega
    rw [e0]
  | case4 => rfl

theorem decode_urlsafe_encode_urlsafe (bs : RBytes) (hb : ∀ b ∈ bs, b < 256) :
    decode_urlsafe (encode_urlsafe bs) = some bs := by
  have hlt := sextetsOfBytes_lt bs hb
  have hmap : mapOpt b64uVal ((sextetsOfBytes bs).map b64uChar) =
      some (sextetsOfBytes bs) :=
    mapOpt_map_of_inverse b64uChar b64uVal _ (fun v => v < 64) hlt b64uVal_b64uChar
  simp only [decode_urlsafe, encode_urlsafe, hmap]
  exact bytesOfSextets_sextetsOfBytes bs hb

/-- Modelled from the spec: `base64::decode` (standard alphabet, padded):
the length must be a multiple of four with at most two trailing `=`. -/
def decode64std (s : RStr) : Option RBytes :=
  if s.length % 4 ≠ 0 then none
  else
    let pads := (s.reverse.takeWhile (fun c => c == 61)).length
    if 2 < pads then none
    else
      match mapOpt b64sVal (s.take (s.length - pads)) with
      | some vs => bytesOfSextets vs
      | none => none

/-! ### Hex codec (the `hex` crate, modelled from the spec) -/

/-- Value of one hex character. -/
def hexVal (c : Nat) : Option Nat :=
  if 48 ≤ c ∧ c ≤ 57 then some (c - 48)
  else if 97 ≤ c ∧ c ≤ 102 then some (c - 87)
  else if 65 ≤ c ∧ c ≤ 70 then some (c - 55)
  else none

/-- Modelled from the spec: `Vec::from_hex`, two characters per byte. -/
def hexDecode : List Nat → Option (List Nat)
  | [] => some []
  | c1 :: c2 :: rest =>
    match hexVal c1, hexVal c2, hexDecode rest with
    | some v1, some v2, some r => some ((v1 * 16 + v2) :: r)
    | _, _, _ => none
  | [_] => none

theorem hexDecode_length_aux :
    ∀ (n : Nat) (s : List Nat), s.length ≤ n → ∀ bs : List Nat,
      hexDecode s = some bs → 2 * bs.length = s.length := by
  intro n
  induction n with
  | zero =>
    intro s hs bs h
    have : s = [] := List.eq_nil_of_length_eq_zero (Nat.le_zero.mp hs)
    subst this
    simp only [hexDecode, Option.some.injEq] at h
    simp [← h]
  | succ k ih =>
    intro s hs bs h
    match s with
    | [] =>
      simp only [hexDecode, Option.some.injEq] at h
      simp [← h]
    | [c] => simp [hexDecode] at h
    | c1 :: c2 :: rest =>
      rw [hexDecode] at h
      split at h
      · rename_i v1 v2 r hv1 hv2 hr
        simp only [Option.some.injEq] at h
        have hlen : rest.length ≤ k := by
          simp only [List.length_cons] at hs
          omega
        have := ih rest (by omega) r hr
        simp only [← h, List.length_cons]
        omega
      · simp at h

theorem hexDecode_length (s bs : List Nat) (h : hexDecode s = some bs) :
    2 * bs.length = s.length :=
  hexDecode_length_aux s.length s le_rfl bs h

/-! ### UTF-8 validity (Rust `String::from_utf8`) -/

/-- UTF-8 continuation byte. -/
def utf8Cont (b : Nat) : Prop := 128 ≤ b ∧ b ≤ 191

instance (b : Nat) : Decidable (utf8Cont b) := by unfold utf8Cont; infer_instance

/-- UTF-8 validity of a byte sequence, following the table in RFC 3629
(used to model `String::from_utf8`). -/
def validUtf8 : List Nat → Bool
  | [] => true
  | b :: rest =>
    if b < 128 then validUtf8 rest
    else if 194 ≤ b ∧ b ≤ 223 then
      match rest with
      | c1 :: r => utf8Cont c1 && validUtf8 r
      | [] => false
    else if b = 224 then
      match rest with
      | c1 :: c2 :: r => (160 ≤ c1 ∧ c1 ≤ 191 : Bool) && utf8Cont c2 && validUtf8 r
      | _ => false
    else if (225 ≤ b ∧ b ≤ 236) ∨ b = 238 ∨ b = 239 then
      match rest with
      | c1 :: c2 :: r => utf8Cont c1 && utf8Cont c2 && validUtf8 r
      | _ => false
    else if b = 237 then
      match rest with
      | c1 :: c2 :: r => (128 ≤ c1 ∧ c1 ≤ 159 : Bool) && utf8Cont c2 && validUtf8 r
      | _ => false
    else if b = 240 then
      match rest with
      | c1 :: c2 :: c3 :: r =>
        (144 ≤ c1 ∧ c1 ≤ 191 : Bool) && utf8Cont c2 && utf8Cont c3 && validUtf8 r
      | _ => false
    else if 241 ≤ b ∧ b ≤ 243 then
      match rest with
      | c1 :: c2 :: c3 :: r => utf8Cont c1 && utf8Cont c2 && utf8Cont c3 && validUtf8 r
      | _ => false
    else if b = 244 then
      match rest with
      | c1 :: c2 :: c3 :: r =>
        (128 ≤ c1 ∧ c1 ≤ 143 : Bool) && utf8Cont c2 && utf8Cont c3 && validUtf8 r
      | _ => false
    else false

/-! ### Sodium type constructors

`from_slice` constructors of the fixed-size key/nonce/tag types; per the
spec, a wrong-length slice surfaces as `InvalidStructure`. -/

/-- `ed25519_sign::Seed::from_slice` (32 bytes). -/
def seedFromSlice (bs : RBytes) : IndyResult RBytes :=
  if bs.length = 32 then .ok bs else .error .InvalidStructure

/-- `ed25519_sign::PublicKey::from_slice` (32 bytes). -/
def publicKeyFromSlice (bs : RBytes) : IndyResult RBytes :=
  if bs.length = 32 then .ok bs else .error .InvalidStructure

/-- `ed25519_sign::SecretKey::from_slice` (64 bytes). -/
def secretKeyFromSlice (bs : RBytes) : IndyResult RBytes :=
  if bs.length = 64 then .ok bs else .error .InvalidStructure

/-- `ed25519_sign::Signature::from_slice` (64 bytes). -/
def signatureFromSlice (bs : RBytes) : IndyResult RBytes :=
  if bs.length = 64 then .ok bs else .error .InvalidStructure

/-- `ed25519_box::Nonce::from_slice` (24 bytes). -/
def boxNonceFromSlice (bs : RBytes) : IndyResult RBytes :=
  if bs.length = 24 then .ok bs else .error .InvalidStructure

/-- `chacha20poly1305_ietf::Nonce::from_slice` (12 bytes). -/
def chachaNonceFromSlice (bs : RBytes) : IndyResult RBytes :=
  if bs.length = 12 then .ok bs else .error .InvalidStructure

/-- `chacha20poly1305_ietf::Tag::from_slice` (16 bytes). -/
def chachaTagFromSlice (bs : RBytes) : IndyResult RBytes :=
  if bs.length = 16 then .ok bs else .error .InvalidStructure

/-- `&str::from_base58()?` with the error converted to `InvalidStructure`. -/
def fromBase58 (s : RStr) : IndyResult RBytes :=
  match decode58 s with
  | some bs => .ok bs
  | none => .error .InvalidStructure

/-! ### Data model of the service -/

/-- Modelled from the spec: a suite implementation (the `CryptoType` trait
object); the ed25519 suite module is not under the analysed sources, so the
primitives are fields of this record. -/
structure CryptoType where
  createKey : Option RBytes → IndyResult (RBytes × RBytes)
  sign : RBytes → RBytes → IndyResult RBytes
  verify : RBytes → RBytes → RBytes → IndyResult Bool
  validateKey : RBytes → IndyResult Unit
  genNonce : RBytes
  cryptoBox : RBytes → RBytes → RBytes → RBytes → IndyResult RBytes
  cryptoBoxOpen : RBytes → RBytes → RBytes → RBytes → IndyResult RBytes

/-- The ciphersuite registry (`crypto_types` map), as the lookup function it
provides under its read lock. -/
def Registry : Type := RStr → Option CryptoType

/-- `DEFAULT_CRYPTO_TYPE`, the UTF-8 bytes of the string `ed25519`. -/
def DEFAULT_CRYPTO_TYPE : RStr := [101, 100, 50, 53, 53, 49, 57]

/-- Registry lookup with the `UnknownCrypto` miss of the source. -/
def lookupCrypto (reg : Registry) (name : RStr) : IndyResult CryptoType :=
  match reg name with
  | some ct => .ok ct
  | none => .error .UnknownCrypto

/-- Modelled from the spec: a DID value with its base58 body and the
optional method / ledger qualifiers. -/
structure DidValue where
  body : RStr
  method : Option RStr
  ledger : Option RStr
  deriving Repr, DecidableEq

/-- Modelled from the spec: `DidValue::new` composes the DID value from
`(body, ledger, method)` and validates the base58 structure of the body,
`InvalidStructure` on failure. -/
def DidValue.new (body : RStr) (ledger : Option RStr) (method : Option RStr) :
    IndyResult DidValue :=
  if (decode58 body).isSome then .ok (DidValue.mk body method ledger)
  else .error .InvalidStructure

/-- The `Did` record: DID value plus verkey. -/
structure Did where
  did : DidValue
  verkey : RStr
  deriving Repr, DecidableEq

/-- The `Key` record: verkey plus signing key. -/
structure Key where
  verkey : RStr
  signkey : RStr
  deriving Repr, DecidableEq

/-- `MyDidInfo` configuration record. -/
structure MyDidInfo where
  did : Option DidValue
  seed : Option RStr
  crypto_type : Option RStr
  cid : Option Bool
  method_name : Option RStr
  ledger_type : Option RStr
  deriving Repr

/-- `KeyInfo` configuration record. -/
structure KeyInfo where
  seed : Option RStr
  crypto_type : Option RStr
  deriving Repr

/-- Modelled from the spec: `split_verkey` splits a verkey at the
`:<suite>` suffix, defaulting the suite name. -/
def split_verkey (vk : RStr) : RStr × RStr :=
  match vk.findIdx? (fun c => c == 58) with
  | some i => (vk.take i, vk.drop (i + 1))
  | none => (vk, DEFAULT_CRYPTO_TYPE)

/-- Modelled from the spec: `verkey_get_cryptoname` returns the suite tag
after `:`, or the default suite name. -/
def verkey_get_cryptoname (vk : RStr) : RStr := (split_verkey vk).2

/-! ### CryptoService operations (translated from
`libvdrtools/src/services/crypto/mod.rs`) -/

/-- `CryptoService::convert_seed`. -/
def convert_seed (seed : Option RStr) : IndyResult (Option RBytes) :=
  match seed with
  | none => .ok none
  | some s => do
    let bytes ← (
      if s.length = 32 then
        .ok s
      else if s.getLast? = some 61 then
        match decode64std s with
        | none => .error .InvalidStructure
        | some decoded =>
          if decoded.length = 32 then .ok decoded
          else .error .InvalidStructure
      else if s.length = 64 then
        match hexDecode s with
        | none => .error .InvalidStructure
        | some bs => .ok bs
      else .error .InvalidStructure : IndyResult RBytes)
    let sd ← seedFromSlice bytes
    .ok (some sd)

/-- `CryptoService::create_key`. -/
def create_key (reg : Registry) (key_info : KeyInfo) : IndyResult Key := do
  let crypto_type_name := key_info.crypto_type.getD DEFAULT_CRYPTO_TYPE
  let crypto_type ← lookupCrypto reg crypto_type_name
  let seed ← convert_seed key_info.seed
  let (vk, sk) ← crypto_type.createKey seed
  let vkStr := encode58 vk
  let skStr := encode58 sk
  let vkTagged := if crypto_type_name ≠ DEFAULT_CRYPTO_TYPE
    then vkStr ++ [58] ++ crypto_type_name else vkStr
  .ok (Key.mk vkTagged skStr)

/-- `CryptoService::create_my_did`. -/
def create_my_did (reg : Registry) (info : MyDidInfo) : IndyResult (Did × Key) := do
  let crypto_type_name := info.crypto_type.getD DEFAULT_CRYPTO_TYPE
  let crypto_type ← lookupCrypto reg crypto_type_name
  let seed ← convert_seed info.seed
  let (vk, sk) ← crypto_type.createKey seed
  let did ← (
    match info.did with
    | some d => .ok d
    | none =>
      if info.cid = some true then
        DidValue.new (encode58 vk) info.ledger_type info.method_name
      else
        DidValue.new (encode58 (vk.take 16)) info.ledger_type info.method_name
    : IndyResult DidValue)
  let vkStr := encode58 vk
  let skStr := encode58 sk
  let vkTagged := if crypto_type_name ≠ DEFAULT_CRYPTO_TYPE
    then vkStr ++ [58] ++ crypto_type_name else vkStr
  .ok (Did.mk did vkTagged, Key.mk vkTagged skStr)

/-- `CryptoService::validate_did` (a stub in the source: always `Ok`). -/
def validate_did (did : DidValue) : IndyResult Unit := .ok ()

/-- `CryptoService::sign`. -/
def sign (reg : Registry) (my_key : Key) (doc : RBytes) : IndyResult RBytes := do
  let crypto_type_name := verkey_get_cryptoname my_key.verkey
  let crypto_type ← lookupCrypto reg crypto_type_name
  let skb ← fromBase58 my_key.signkey
  let my_sk ← secretKeyFromSlice skb
  let signature ← crypto_type.sign my_sk doc
  .ok signature

/-- `CryptoService::verify`. -/
def verify (reg : Registry) (their_vk : RStr) (msg signature : RBytes) :
    IndyResult Bool := do
  let pair := split_verkey their_vk
  let crypto_type ← lookupCrypto reg pair.2
  let vkb ← fromBase58 pair.1
  let pk ← publicKeyFromSlice vkb
  let sg ← signatureFromSlice signature
  crypto_type.verify pk msg sg

/-- `CryptoService::crypto_box`. -/
def crypto_box (reg : Registry) (my_key : Key) (their_vk : RStr) (doc : RBytes) :
    IndyResult (RBytes × RBytes) := do
  let crypto_type_name := verkey_get_cryptoname my_key.verkey
  let pair := split_verkey their_vk
  if crypto_type_name ≠ pair.2 then .error .UnknownCrypto
  else do
    let crypto_type ← lookupCrypto reg crypto_type_name
    let skb ← fromBase58 my_key.signkey
    let my_sk ← secretKeyFromSlice skb
    let vkb ← fromBase58 pair.1
    let pk ← publicKeyFromSlice vkb
    let nonce := crypto_type.genNonce
    let encrypted_doc ← crypto_type.cryptoBox my_sk pk doc nonce
    .ok (encrypted_doc, nonce)

/-- `CryptoService::crypto_box_open`. -/
def crypto_box_open (reg : Registry) (my_key : Key) (their_vk : RStr)
    (doc : RBytes) (nonce : RBytes) : IndyResult RBytes := do
  let crypto_type_name := verkey_get_cryptoname my_key.verkey
  let pair := split_verkey their_vk
  if crypto_type_name ≠ pair.2 then .error .UnknownCrypto
  else do
    let crypto_type ← lookupCrypto reg crypto_type_name
    let skb ← fromBase58 my_key.signkey
    let my_sk ← secretKeyFromSlice skb
    let vkb ← fromBase58 pair.1
    let pk ← publicKeyFromSlice vkb
    let nn ← boxNonceFromSlice nonce
    crypto_type.cryptoBoxOpen my_sk pk doc nn

/-- `CryptoService::validate_key`. -/
def validate_key (reg : Registry) (vk : RStr) : IndyResult Unit := do
  let pair := split_verkey vk
  let crypto_type ← lookupCrypto reg pair.2
  if pair.1.head? = some 126 then do
    let _ ← fromBase58 (pair.1.drop 1)
    .ok ()
  else do
    let vkb ← fromBase58 pair.1
    let pk ← publicKeyFromSlice vkb
    crypto_type.validateKey pk

/-- Modelled from the spec: the ChaCha20-Poly1305 IETF detached AEAD
primitive (from `indy_utils`, not under the analysed sources).  The nonce
that `gen_nonce_and_encrypt_detached` draws is passed explicitly. -/
structure Chacha20Poly1305 where
  encryptDetached : RBytes → RStr → RBytes → RBytes → RBytes × RBytes
  decryptDetached : RBytes → RBytes → RBytes → RBytes → RStr → Option RBytes

/-- `CryptoService::encrypt_plaintext`; the fresh nonce is an explicit
argument of the model. -/
def encrypt_plaintext (A : Chacha20Poly1305) (nonce : RBytes)
    (plaintext : RBytes) (aad : RStr) (cek : RBytes) : RStr × RStr × RStr :=
  let pair := A.encryptDetached plaintext aad nonce cek
  let iv_encoded := encode_urlsafe nonce
  let ciphertext_encoded := encode_urlsafe pair.1
  let tag_encoded := encode_urlsafe pair.2
  (ciphertext_encoded, iv_encoded, tag_encoded)

/-- `CryptoService::decrypt_ciphertext`. -/
def decrypt_ciphertext (A : Chacha20Poly1305) (ciphertext : RStr) (aad : RStr)
    (iv : RStr) (tag : RStr) (cek : RBytes) : IndyResult RStr := do
  let ciphertext_as_vec ← (
    match decode_urlsafe ciphertext with
    | some v => .ok v
    | none => .error .InvalidStructure : IndyResult RBytes)
  let nonce_as_vec ← (
    match decode_urlsafe iv with
    | some v => .ok v
    | none => .error .InvalidStructure : IndyResult RBytes)
  let nonce ← chachaNonceFromSlice nonce_as_vec
  let tag_as_vec ← (
    match decode_urlsafe tag with
    | some v => .ok v
    | none => .error .InvalidStructure : IndyResult RBytes)
  let tagv ← chachaTagFromSlice tag_as_vec
  let plaintext_bytes ← (
    match A.decryptDetached ciphertext_as_vec cek nonce tagv aad with
    | some pt => .ok pt
    | none => .error .UnknownCrypto : IndyResult RBytes)
  if validUtf8 plaintext_bytes then .ok plaintext_bytes
  else .error .InvalidStructure

/-! ### Reduction lemmas for the `Except` monad -/

@[simp]
theorem bind_ok_eq {α β : Type} (x : α) (f : α → IndyResult β) :
    (Except.ok x : IndyResult α) >>= f = f x := rfl

@[simp]
theorem bind_error_eq {α β : Type} (e : IndyErrorKind) (f : α → IndyResult β) :
    (Except.error e : IndyResult α) >>= f = Except.error e := rfl

/-! ### Concrete instances used to instantiate the abstract primitives

Modelled from the spec: executable stand-ins for the external ed25519 suite
and the registry holding it, with the shapes and equations the spec ascribes
to the real primitives (deterministic keygen from the optional seed, 32-byte
public keys, 64-byte secret keys and signatures, verification recomputing
the signature from the public half).  They serve as witnesses that the
hypotheses of the abstract theorems are satisfiable. -/

/-- Deterministic public key of the model suite. -/
def toyPk (seed : Option RBytes) : RBytes :=
  match seed with
  | some s => List.replicate 32 ((s.foldl (fun a b => a + b) 7) % 256)
  | none => List.replicate 32 7

/-- Deterministic secret key of the model suite; its first half is the
public key, as for real Ed25519 expanded secret keys the second half is. -/
def toySk (seed : Option RBytes) : RBytes := toyPk seed ++ List.replicate 32 2

/-- Deterministic 64-byte signature of the model suite. -/
def toySig (sk : RBytes) (doc : RBytes) : RBytes :=
  List.replicate 64
    (((sk.foldl (fun a b => a + b) 0) + (doc.foldl (fun a b => a * 2 + b) 0)) % 256)

/-- The model suite instance. -/
def toyEd25519 : CryptoType where
  createKey := fun seed => .ok (toyPk seed, toySk seed)
  sign := fun sk doc => .ok (toySig sk doc)
  verify := fun vk doc sg => .ok (sg == toySig (vk ++ List.replicate 32 2) doc)
  validateKey := fun _ => .ok ()
  genNonce := List.replicate 24 9
  cryptoBox := fun _ _ doc nonce => .ok (doc ++ nonce)
  cryptoBoxOpen := fun _ _ doc _ => .ok doc

/-- A registry holding the model suite under the default name. -/
def toyRegistry : Registry :=
  fun name => if name = DEFAULT_CRYPTO_TYPE then some toyEd25519 else none

/-- A suite whose structural key validation always fails (for observing
which paths consult the validator). -/
def toyRejectingSuite : CryptoType where
  createKey := fun seed => .ok (toyPk seed, toySk seed)
  sign := fun sk doc => .ok (toySig sk doc)
  verify := fun vk doc sg => .ok (sg == toySig (vk ++ List.replicate 32 2) doc)
  validateKey := fun _ => .error .InvalidStructure
  genNonce := List.replicate 24 9
  cryptoBox := fun _ _ doc nonce => .ok (doc ++ nonce)
  cryptoBoxOpen := fun _ _ doc _ => .ok doc

/-- A registry holding the always-rejecting suite under the default name. -/
def toyRejectingRegistry : Registry :=
  fun name => if name = DEFAULT_CRYPTO_TYPE then some toyRejectingSuite else none

/-! ### C1 -/

/-- C1: for every `MyDidInfo` whose suite is registered and whose seed
normalizes successfully (and whose generated public key consists of bytes),
`create_my_did` chooses the DID body as follows: a supplied `did` is used
verbatim as the returned DID; otherwise, with `cid == Some(true)` the body
is the base58 encoding of all 32 bytes of the generated public key;
otherwise the body is the base58 encoding of the first 16 bytes of the
generated public key. -/
theorem C1_create_my_did_did_body (reg : Registry) (info : MyDidInfo)
    (ct : CryptoType) (s : Option RBytes) (vk sk : RBytes)
    (hreg : reg (info.crypto_type.getD DEFAULT_CRYPTO_TYPE) = some ct)
    (hseed : convert_seed info.seed = .ok s)
    (hck : ct.createKey s = .ok (vk, sk))
    (hvk : ∀ b ∈ vk, b < 256) :
    (∀ d, info.did = some d →
      ∃ r, create_my_did reg info = .ok r ∧ r.1.did = d) ∧
    (info.did = none → info.cid = some true →
      ∃ r, create_my_did reg info = .ok r ∧ r.1.did.body = encode58 vk) ∧
    (info.did = none → info.cid ≠ some true →
      ∃ r, create_my_did reg info = .ok r ∧
        r.1.did.body = encode58 (vk.take 16)) := by
  have hunfold : create_my_did reg info =
      (match info.did with
        | some d => .ok d
        | none =>
          if info.cid = some true then
            DidValue.new (encode58 vk) info.ledger_type info.method_name
          else
            DidValue.new (encode58 (vk.take 16)) info.ledger_type info.method_name
        : IndyResult DidValue) >>= fun did =>
        .ok (Did.mk did (if info.crypto_type.getD DEFAULT_CRYPTO_TYPE ≠ DEFAULT_CRYPTO_TYPE
            then encode58 vk ++ [58] ++ info.crypto_type.getD DEFAULT_CRYPTO_TYPE
            else encode58 vk),
          Key.mk (if info.crypto_type.getD DEFAULT_CRYPTO_TYPE ≠ DEFAULT_CRYPTO_TYPE
            then encode58 vk ++ [58] ++ info.crypto_type.getD DEFAULT_CRYPTO_TYPE
            else encode58 vk) (encode58 sk)) := by
    simp only [create_my_did, lookupCrypto, hreg, hseed, hck, bind_ok_eq]
  refine ⟨?_, ?_, ?_⟩
  · intro d hd
    rw [hunfold, hd]
    exact ⟨_, rfl, rfl⟩
  · intro hd hcid
    rw [hunfold, hd]
    simp only [hcid, if_true]
    have hok : DidValue.new (encode58 vk) info.ledger_type info.method_name =
        .ok (DidValue.mk (encode58 vk) info.method_name info.ledger_type) := by
      simp [DidValue.new, decode58_encode58 vk hvk]
    rw [hok]
    exact ⟨_, rfl, rfl⟩
  · intro hd hcid
    rw [hunfold, hd]
    simp only [hcid, if_false]
    have hb16 : ∀ b ∈ vk.take 16, b < 256 :=
      fun b hb => hvk b (List.take_subset 16 vk hb)
    have hok : DidValue.new (encode58 (vk.take 16)) info.ledger_type info.method_name =
        .ok (DidValue.mk (encode58 (vk.take 16)) info.method_name info.ledger_type) := by
      simp [DidValue.new, decode58_encode58 _ hb16]
    rw [hok]
    exact ⟨_, rfl, rfl⟩

/-- C1 witness: the cid branch instantiated with the model suite. -/
theorem C1_witness :
    ∃ r, create_my_did toyRegistry
        (MyDidInfo.mk none none none (some true) none none) = .ok r ∧
      r.1.did.body = encode58 (toyPk none) :=
  (C1_create_my_did_did_body toyRegistry
      (MyDidInfo.mk none none none (some true) none none)
      toyEd25519 none (toyPk none) (toySk none)
      rfl rfl rfl (by decide)).2.1 rfl rfl

/-! ### C3 -/

/-- C3 counterexample: `0` and `O` are not base58 characters, yet
`create_my_did` succeeds on a `MyDidInfo` supplying the DID `0O`, returning
it verbatim — no base58 validation of a supplied DID happens. -/
theorem C3_counterexample :
    decode58 [48, 79] = none ∧
    Except.map (fun r => r.1.did.body)
      (create_my_did toyRegistry
        (MyDidInfo.mk (some (DidValue.mk [48, 79] none none))
          none none none none none)) = .ok [48, 79] := by
  constructor
  · rfl
  · rfl

/-- C3 amended: when a `did` is supplied, `create_my_did` performs no base58
validation of it: given a registered suite, a seed that normalizes and a
successful key generation it succeeds and returns the supplied DID
verbatim, whether or not its body is valid base58. -/
theorem C3_amended_supplied_did_verbatim (reg : Registry) (info : MyDidInfo)
    (ct : CryptoType) (s : Option RBytes) (vk sk : RBytes) (d : DidValue)
    (hd : info.did = some d)
    (hreg : reg (info.crypto_type.getD DEFAULT_CRYPTO_TYPE) = some ct)
    (hseed : convert_seed info.seed = .ok s)
    (hck : ct.createKey s = .ok (vk, sk)) :
    ∃ r, create_my_did reg info = .ok r ∧ r.1.did = d := by
  have hunfold : create_my_did reg info =
      (match info.did with
        | some dd => .ok dd
        | none =>
          if info.cid = some true then
            DidValue.new (encode58 vk) info.ledger_type info.method_name
          else
            DidValue.new (encode58 (vk.take 16)) info.ledger_type info.method_name
        : IndyResult DidValue) >>= fun did =>
        .ok (Did.mk did (if info.crypto_type.getD DEFAULT_CRYPTO_TYPE ≠ DEFAULT_CRYPTO_TYPE
            then encode58 vk ++ [58] ++ info.crypto_type.getD DEFAULT_CRYPTO_TYPE
            else encode58 vk),
          Key.mk (if info.crypto_type.getD DEFAULT_CRYPTO_TYPE ≠ DEFAULT_CRYPTO_TYPE
            then encode58 vk ++ [58] ++ info.crypto_type.getD DEFAULT_CRYPTO_TYPE
            else encode58 vk) (encode58 sk)) := by
    simp only [create_my_did, lookupCrypto, hreg, hseed, hck, bind_ok_eq]
  rw [hunfold, hd]
  exact ⟨_, rfl, rfl⟩

/-- C3 amended witness: the invalid-base58 DID `0O`, supplied, comes back
verbatim. -/
theorem C3_amended_witness :
    ∃ r, create_my_did toyRegistry
        (MyDidInfo.mk (some (DidValue.mk [48, 79] none none))
          none none none none none) = .ok r ∧
      r.1.did = DidValue.mk [48, 79] none none :=
  C3_amended_supplied_did_verbatim toyRegistry _ toyEd25519 none
    (toyPk none) (toySk none) (DidValue.mk [48, 79] none none)
    rfl rfl rfl rfl

/-! ### C2 -/

/-- C2: `convert_seed` returns `None` for an absent seed; the raw UTF-8
bytes for a 32-byte string; otherwise, for a string ending in `=`, its
base64 decoding, failing with `InvalidStructure` when the decode fails or
does not yield exactly 32 bytes; otherwise, for a 64-byte string, its hex
decoding, failing with `InvalidStructure` on invalid hex; and fails with
`InvalidStructure` at every other length. -/
theorem C2_convert_seed_cases :
    convert_seed none = .ok none ∧
    (∀ s : RStr, s.length = 32 → convert_seed (some s) = .ok (some s)) ∧
    (∀ s : RStr, s.length ≠ 32 → s.getLast? = some 61 →
      (decode64std s = none → convert_seed (some s) = .error .InvalidStructure) ∧
      (∀ bs, decode64std s = some bs → bs.length = 32 →
        convert_seed (some s) = .ok (some bs)) ∧
      (∀ bs, decode64std s = some bs → bs.length ≠ 32 →
        convert_seed (some s) = .error .InvalidStructure)) ∧
    (∀ s : RStr, s.length ≠ 32 → s.getLast? ≠ some 61 → s.length = 64 →
      (hexDecode s = none → convert_seed (some s) = .error .InvalidStructure) ∧
      (∀ bs, hexDecode s = some bs → convert_seed (some s) = .ok (some bs))) ∧
    (∀ s : RStr, s.length ≠ 32 → s.getLast? ≠ some 61 → s.length ≠ 64 →
      convert_seed (some s) = .error .InvalidStructure) := by
  refine ⟨rfl, ?_, ?_, ?_, ?_⟩
  · intro s h
    simp [convert_seed, h, seedFromSlice]
  · intro s h1 h2
    refine ⟨?_, ?_, ?_⟩
    · intro hdec
      simp [convert_seed, h1, h2, hdec]
    · intro bs hdec hlen
      simp [convert_seed, h1, h2, hdec, hlen, seedFromSlice]
    · intro bs hdec hlen
      simp [convert_seed, h1, h2, hdec, hlen]
  · intro s h1 h2 h3
    refine ⟨?_, ?_⟩
    · intro hdec
      simp [convert_seed, h1, h2, h3, hdec]
    · intro bs hdec
      have hl := hexDecode_length s bs hdec
      have hb : bs.length = 32 := by omega
      simp [convert_seed, h1, h2, h3, hdec, seedFromSlice, hb]
  · intro s h1 h2 h3
    simp [convert_seed, h1, h2, h3]

/-- C2 witness: each branch at a concrete seed — 32 raw bytes, a malformed
and a well-formed padded base64 string, invalid and valid 64-character hex,
and the 31- and 33-byte boundary cases. -/
theorem C2_witness :
    convert_seed (some (List.replicate 32 48)) = .ok (some (List.replicate 32 48)) ∧
    convert_seed (some [61, 61, 61]) = .error .InvalidStructure ∧
    convert_seed (some (List.replicate 43 65 ++ [61])) =
      .ok (some (List.replicate 32 0)) ∧
    convert_seed (some (List.replicate 64 48)) = .ok (some (List.replicate 32 0)) ∧
    convert_seed (some (List.replicate 64 122)) = .error .InvalidStructure ∧
    convert_seed (some (List.replicate 31 48)) = .error .InvalidStructure ∧
    convert_seed (some (List.replicate 33 48)) = .error .InvalidStructure := by
  refine ⟨?_, ?_, ?_, ?_, ?_, ?_, ?_⟩
  · exact C2_convert_seed_cases.2.1 _ (by decide)
  · exact (C2_convert_seed_cases.2.2.1 _ (by decide) (by decide)).1 (by decide)
  · exact (C2_convert_seed_cases.2.2.1 _ (by decide) (by decide)).2.1 _
      (by decide) (by decide)
  · exact (C2_convert_seed_cases.2.2.2.1 _ (by decide) (by decide) (by decide)).2 _
      (by decide)
  · exact (C2_convert_seed_cases.2.2.2.1 _ (by decide) (by decide) (by decide)).1
      (by decide)
  · exact C2_convert_seed_cases.2.2.2.2 _ (by decide) (by decide) (by decide)
  · exact C2_convert_seed_cases.2.2.2.2 _ (by decide) (by decide) (by decide)

/-! ### C10 -/

/-- C10: after splitting off any suite tag, a verkey beginning with `~`
passes `validate_key` whenever the remainder after `~` is valid base58,
regardless of the decoded byte length and of the suite's validator; the
suite's structural point validation is applied only to non-abbreviated
verkeys, where the result is exactly the validator's verdict. -/
theorem C10_validate_key_abbreviated (reg : Registry) (vk : RStr)
    (ct : CryptoType)
    (hreg : reg (split_verkey vk).2 = some ct) :
    ((split_verkey vk).1.head? = some 126 →
      ∀ bs, decode58 ((split_verkey vk).1.drop 1) = some bs →
        validate_key reg vk = .ok ()) ∧
    ((split_verkey vk).1.head? ≠ some 126 →
      ∀ vkb, decode58 (split_verkey vk).1 = some vkb → vkb.length = 32 →
        validate_key reg vk = ct.validateKey vkb) := by
  constructor
  · intro habb bs hdec
    have hdec2 : decode58 ((split_verkey vk).1.tail) = some bs := by
      rw [← List.drop_one]
      exact hdec
    simp [validate_key, lookupCrypto, hreg, habb, fromBase58, hdec2]
  · intro habb vkb hdec hlen
    simp [validate_key, lookupCrypto, hreg, habb, fromBase58, hdec,
      publicKeyFromSlice, hlen]

/-- C10 witness: an abbreviated verkey whose tail decodes to only three
bytes passes validation even under a suite whose validator always rejects;
a full 32-byte verkey under the same suite is handed to the validator and
rejected. -/
theorem C10_witness :
    validate_key toyRejectingRegistry (126 :: encode58 [1, 2, 3]) = .ok () ∧
    validate_key toyRejectingRegistry (encode58 (List.replicate 32 1)) =
      .error .InvalidStructure := by
  constructor
  · exact (C10_validate_key_abbreviated toyRejectingRegistry
      (126 :: encode58 [1, 2, 3]) toyRejectingSuite rfl).1
      (by decide) [1, 2, 3] (by decide)
  · exact (C10_validate_key_abbreviated toyRejectingRegistry
      (encode58 (List.replicate 32 1)) toyRejectingSuite rfl).2
      (by decide) (List.replicate 32 1) (by decide) (by decide)

/-! ### C5 -/

/-- C5: when the suite tags of `my_key.verkey` and `their_vk` differ,
`crypto_box` and `crypto_box_open` fail with `UnknownCrypto`.  The theorem
holds for every registry and hence for every behavior of the suite's box
primitives and nonce generator: no encryption or decryption is consulted. -/
theorem C5_crypto_box_suite_mismatch (reg : Registry) (my_key : Key)
    (their_vk : RStr) (doc nonce : RBytes)
    (hne : verkey_get_cryptoname my_key.verkey ≠ (split_verkey their_vk).2) :
    crypto_box reg my_key their_vk doc = .error .UnknownCrypto ∧
    crypto_box_open reg my_key their_vk doc nonce = .error .UnknownCrypto := by
  constructor
  · simp [crypto_box, hne]
  · simp [crypto_box_open, hne]

/-- C5 witness: a default-suite key against a verkey tagged with the
unregistered suite `x`, under the empty registry. -/
theorem C5_witness :
    crypto_box (fun _ => none) (Key.mk [65] [66]) [66, 58, 120] [1, 2] =
      .error .UnknownCrypto ∧
    crypto_box_open (fun _ => none) (Key.mk [65] [66]) [66, 58, 120] [1, 2]
      (List.replicate 24 0) = .error .UnknownCrypto :=
  C5_crypto_box_suite_mismatch (fun _ => none) (Key.mk [65] [66])
    [66, 58, 120] [1, 2] (List.replicate 24 0) (by decide)

/-! ### C6 -/

/-- C6: for a verkey with a registered suite, `verify` returns `Ok(false)`
when the decoded verkey is well-formed and the signature has the correct
length but the suite does not verify it, and fails with `InvalidStructure`
when the verkey does not decode as base58, the decoded verkey has the wrong
length, or the signature has the wrong length. -/
theorem C6_verify_errors (reg : Registry) (their_vk : RStr) (ct : CryptoType)
    (msg signature : RBytes)
    (hreg : reg (split_verkey their_vk).2 = some ct) :
    (∀ vkb, decode58 (split_verkey their_vk).1 = some vkb → vkb.length = 32 →
      signature.length = 64 →
      ct.verify vkb msg signature = .ok false →
      verify reg their_vk msg signature = .ok false) ∧
    (decode58 (split_verkey their_vk).1 = none →
      verify reg their_vk msg signature = .error .InvalidStructure) ∧
    (∀ vkb, decode58 (split_verkey their_vk).1 = some vkb → vkb.length ≠ 32 →
      verify reg their_vk msg signature = .error .InvalidStructure) ∧
    (∀ vkb, decode58 (split_verkey their_vk).1 = some vkb → vkb.length = 32 →
      signature.length ≠ 64 →
      verify reg their_vk msg signature = .error .InvalidStructure) := by
  refine ⟨?_, ?_, ?_, ?_⟩
  · intro vkb hdec hvl hsl hv
    simp [verify, lookupCrypto, hreg, fromBase58, hdec, publicKeyFromSlice,
      hvl, signatureFromSlice, hsl, hv]
  · intro hdec
    simp [verify, lookupCrypto, hreg, fromBase58, hdec]
  · intro vkb hdec hvl
    simp [verify, lookupCrypto, hreg, fromBase58, hdec, publicKeyFromSlice, hvl]
  · intro vkb hdec hvl hsl
    simp [verify, lookupCrypto, hreg, fromBase58, hdec, publicKeyFromSlice,
      hvl, signatureFromSlice, hsl]

/-- C6 witness: under the model suite, a wrong 64-byte signature yields
`Ok(false)`; a non-base58 verkey, a short decoded verkey and a short
signature each yield `InvalidStructure`. -/
theorem C6_witness :
    verify toyRegistry (encode58 (toyPk none)) [1] (List.replicate 64 0) =
      .ok false ∧
    verify toyRegistry [48] [1] (List.replicate 64 0) =
      .error .InvalidStructure ∧
    verify toyRegistry (encode58 [1, 2, 3]) [1] (List.replicate 64 0) =
      .error .InvalidStructure ∧
    verify toyRegistry (encode58 (toyPk none)) [1] (List.replicate 10 0) =
      .error .InvalidStructure := by
  refine ⟨?_, ?_, ?_, ?_⟩
  · exact (C6_verify_errors toyRegistry (encode58 (toyPk none)) toyEd25519
      [1] (List.replicate 64 0) rfl).1 (toyPk none) (by decide) (by decide)
      (by decide) rfl
  · exact (C6_verify_errors toyRegistry [48] toyEd25519
      [1] (List.replicate 64 0) rfl).2.1 (by decide)
  · exact (C6_verify_errors toyRegistry (encode58 [1, 2, 3]) toyEd25519
      [1] (List.replicate 64 0) rfl).2.2.1 [1, 2, 3] (by decide) (by decide)
  · exact (C6_verify_errors toyRegistry (encode58 (toyPk none)) toyEd25519
      [1] (List.replicate 10 0) rfl).2.2.2 (toyPk none) (by decide) (by decide)
      (by decide)

/-! ### C7 -/

theorem b58Char_ne_colon : ∀ d < 58, b58Char d ≠ 58 := by decide

theorem mem_encode58_ne_colon (bs : RBytes) :
    ∀ c ∈ encode58 bs, (c == 58) = false := by
  intro c hc
  simp only [encode58, List.mem_append] at hc
  have hne : c ≠ 58 := by
    rcases hc with h | h
    · have := List.eq_of_mem_replicate h
      omega
    · obtain ⟨d, hd, rfl⟩ := List.mem_map.mp h
      have hd58 : d < 58 := by
        rw [natDigits_eq_digits 58 _ (by norm_num)] at hd
        exact Nat.digits_lt_base (by norm_num) (List.mem_reverse.mp hd)
      exact b58Char_ne_colon d hd58
  simpa using hne

theorem findIdx?_eq_none_of_all_false (p : Nat → Bool) :
    ∀ l : List Nat, (∀ c ∈ l, p c = false) → l.findIdx? p = none := by
  intro l h
  rw [List.findIdx?_eq_none_iff]
  exact h

theorem split_verkey_encode58 (bs : RBytes) :
    split_verkey (encode58 bs) = (encode58 bs, DEFAULT_CRYPTO_TYPE) := by
  rw [split_verkey,
    findIdx?_eq_none_of_all_false _ _ (mem_encode58_ne_colon bs)]

/-- C7: for every message and every keypair freshly produced by
`create_key` under the default ed25519 suite (the suite's sign/verify
round-trip property, 32/64-byte key shapes and signing totality being the
spec-modelled contract of the suite), the service-level
`verify(verkey, msg, sign(key, msg))` returns `Ok(true)`. -/
theorem C7_sign_verify_roundtrip (reg : Registry) (ct : CryptoType)
    (ki : KeyInfo) (key : Key) (s : Option RBytes) (vkb skb : RBytes)
    (msg : RBytes)
    (hdefault : ki.crypto_type = none)
    (hreg : reg DEFAULT_CRYPTO_TYPE = some ct)
    (hseed : convert_seed ki.seed = .ok s)
    (hck : ct.createKey s = .ok (vkb, skb))
    (hkey : create_key reg ki = .ok key)
    (hvkb : ∀ b ∈ vkb, b < 256) (hvkl : vkb.length = 32)
    (hskb : ∀ b ∈ skb, b < 256) (hskl : skb.length = 64)
    (hsig : ∀ m sg, ct.sign skb m = .ok sg →
      sg.length = 64 ∧ ct.verify vkb m sg = .ok true)
    (hsome : ∃ sg, ct.sign skb msg = .ok sg) :
    ∃ sg, sign reg key msg = .ok sg ∧
      verify reg key.verkey msg sg = .ok true := by
  have hkeyval : key = Key.mk (encode58 vkb) (encode58 skb) := by
    rw [create_key, hdefault] at hkey
    simp only [Option.getD_none, lookupCrypto, hreg, bind_ok_eq, hseed, hck,
      ne_eq, not_true_eq_false, if_false, ite_false, Except.ok.injEq] at hkey
    exact hkey.symm
  obtain ⟨sg, hsg⟩ := hsome
  obtain ⟨hsgl, hver⟩ := hsig msg sg hsg
  refine ⟨sg, ?_, ?_⟩
  · rw [hkeyval]
    simp [sign, verkey_get_cryptoname, split_verkey_encode58, lookupCrypto,
      hreg, fromBase58, decode58_encode58 skb hskb, secretKeyFromSlice, hskl,
      hsg]
  · rw [hkeyval]
    simp [verify, split_verkey_encode58, lookupCrypto, hreg, fromBase58,
      decode58_encode58 vkb hvkb, publicKeyFromSlice, hvkl,
      signatureFromSlice, hsgl, hver]

/-- Suite contract of the model suite, discharging the C7 hypotheses. -/
theorem toySuite_sign_verify (m sg : RBytes)
    (h : toyEd25519.sign (toySk none) m = .ok sg) :
    sg.length = 64 ∧ toyEd25519.verify (toyPk none) m sg = .ok true := by
  have hsg : sg = toySig (toySk none) m := by
    simp only [toyEd25519, Except.ok.injEq] at h
    exact h.symm
  subst hsg
  constructor
  · simp [toySig]
  · simp [toyEd25519, toySk]

/-- C7 witness: the round trip at the concrete message `hi` with the model
suite's deterministic keypair. -/
theorem C7_witness :
    ∃ sg, sign toyRegistry (Key.mk (encode58 (toyPk none)) (encode58 (toySk none)))
        [104, 105] = .ok sg ∧
      verify toyRegistry (Key.mk (encode58 (toyPk none))
        (encode58 (toySk none))).verkey [104, 105] sg = .ok true :=
  C7_sign_verify_roundtrip toyRegistry toyEd25519 (KeyInfo.mk none none)
    (Key.mk (encode58 (toyPk none)) (encode58 (toySk none))) none
    (toyPk none) (toySk none) [104, 105]
    rfl rfl rfl rfl rfl
    (by decide) (by decide) (by decide) (by decide)
    (fun m sg h => toySuite_sign_verify m sg h)
    ⟨toySig (toySk none) [104, 105], rfl⟩

/-! ### C4, C8, C9: the AEAD helpers -/

/-- Deterministic 16-byte tag of the model AEAD. -/
def toyTag (ctb : RBytes) (aad : RStr) (nonce key : RBytes) : RBytes :=
  List.replicate 16
    ((ctb.foldl (fun a b => a + b) 0 + aad.foldl (fun a b => a + b) 0 +
      nonce.foldl (fun a b => a + b) 0 + key.foldl (fun a b => a + b) 0) % 256)

/-- Modelled from the spec: a concrete AEAD instance for the witnesses,
invertible on byte-valued plaintexts and rejecting any tag other than the
one the encryption computed. -/
def toyAead : Chacha20Poly1305 where
  encryptDetached := fun pt aad nonce key =>
    (pt.map (fun b => (b + 1) % 256),
     toyTag (pt.map (fun b => (b + 1) % 256)) aad nonce key)
  decryptDetached := fun ctb key nonce tag aad =>
    if tag = toyTag ctb aad nonce key then
      some (ctb.map (fun b => (b + 255) % 256))
    else none

/-- C4: in `decrypt_ciphertext`, a base64url decode failure of the
ciphertext, iv or tag yields `InvalidStructure`; a decoded iv or tag of the
wrong length yields `InvalidStructure`; an AEAD authentication failure
yields `UnknownCrypto`; and a decrypted plaintext that is not valid UTF-8
yields `InvalidStructure`. -/
theorem C4_decrypt_ciphertext_errors (A : Chacha20Poly1305)
    (ctx aad iv tag : RStr) (cek : RBytes) :
    (decode_urlsafe ctx = none ∨ decode_urlsafe iv = none ∨
        decode_urlsafe tag = none →
      decrypt_ciphertext A ctx aad iv tag cek = .error .InvalidStructure) ∧
    (∀ ivb, decode_urlsafe iv = some ivb → ivb.length ≠ 12 →
      decrypt_ciphertext A ctx aad iv tag cek = .error .InvalidStructure) ∧
    (∀ tagb, decode_urlsafe tag = some tagb → tagb.length ≠ 16 →
      decrypt_ciphertext A ctx aad iv tag cek = .error .InvalidStructure) ∧
    (∀ cb ivb tagb, decode_urlsafe ctx = some cb →
      decode_urlsafe iv = some ivb → ivb.length = 12 →
      decode_urlsafe tag = some tagb → tagb.length = 16 →
      A.decryptDetached cb cek ivb tagb aad = none →
      decrypt_ciphertext A ctx aad iv tag cek = .error .UnknownCrypto) ∧
    (∀ cb ivb tagb pt, decode_urlsafe ctx = some cb →
      decode_urlsafe iv = some ivb → ivb.length = 12 →
      decode_urlsafe tag = some tagb → tagb.length = 16 →
      A.decryptDetached cb cek ivb tagb aad = some pt →
      validUtf8 pt = false →
      decrypt_ciphertext A ctx aad iv tag cek = .error .InvalidStructure) := by
  refine ⟨?_, ?_, ?_, ?_, ?_⟩
  · intro h
    rcases h with h | h | h
    · simp [decrypt_ciphertext, h]
    · cases hc : decode_urlsafe ctx with
      | none => simp [decrypt_ciphertext, hc]
      | some cb => simp [decrypt_ciphertext, hc, h]
    · cases hc : decode_urlsafe ctx with
      | none => simp [decrypt_ciphertext, hc]
      | some cb =>
        cases hi : decode_urlsafe iv with
        | none => simp [decrypt_ciphertext, hc, hi]
        | some ivb =>
          by_cases hl : ivb.length = 12
          · simp [decrypt_ciphertext, hc, hi, chachaNonceFromSlice, hl, h]
          · simp [decrypt_ciphertext, hc, hi, chachaNonceFromSlice, hl]
  · intro ivb hi hl
    cases hc : decode_urlsafe ctx with
    | none => simp [decrypt_ciphertext, hc]
    | some cb => simp [decrypt_ciphertext, hc, hi, chachaNonceFromSlice, hl]
  · intro tagb ht hl
    cases hc : decode_urlsafe ctx with
    | none => simp [decrypt_ciphertext, hc]
    | some cb =>
      cases hi : decode_urlsafe iv with
      | none => simp [decrypt_ciphertext, hc, hi]
      | some ivb =>
        by_cases hil : ivb.length = 12
        · simp [decrypt_ciphertext, hc, hi, chachaNonceFromSlice, hil, ht,
            chachaTagFromSlice, hl]
        · simp [decrypt_ciphertext, hc, hi, chachaNonceFromSlice, hil]
  · intro cb ivb tagb hc hi hil ht htl hdec
    simp [decrypt_ciphertext, hc, hi, chachaNonceFromSlice, hil, ht,
      chachaTagFromSlice, htl, hdec]
  · intro cb ivb tagb pt hc hi hil ht htl hdec hutf
    simp [decrypt_ciphertext, hc, hi, chachaNonceFromSlice, hil, ht,
      chachaTagFromSlice, htl, hdec, hutf]

/-- C4 witness: each error path of `decrypt_ciphertext` at concrete inputs
over the model AEAD — a `%` in the ciphertext, a 2-byte iv, a 3-byte tag, a
forged tag, and a plaintext decrypting to the invalid UTF-8 byte 255. -/
theorem C4_witness :
    decrypt_ciphertext toyAead [37] [] (encode_urlsafe (List.replicate 12 0))
      (encode_urlsafe (List.replicate 16 0)) (List.replicate 32 0) =
      .error .InvalidStructure ∧
    decrypt_ciphertext toyAead (encode_urlsafe [5]) [] (encode_urlsafe [1, 2])
      (encode_urlsafe (List.replicate 16 0)) (List.replicate 32 0) =
      .error .InvalidStructure ∧
    decrypt_ciphertext toyAead (encode_urlsafe [5]) []
      (encode_urlsafe (List.replicate 12 0)) (encode_urlsafe [1, 2, 3])
      (List.replicate 32 0) = .error .InvalidStructure ∧
    decrypt_ciphertext toyAead (encode_urlsafe [5]) []
      (encode_urlsafe (List.replicate 12 0))
      (encode_urlsafe (List.replicate 16 99)) (List.replicate 32 0) =
      .error .UnknownCrypto ∧
    decrypt_ciphertext toyAead (encode_urlsafe [0]) []
      (encode_urlsafe (List.replicate 12 0))
      (encode_urlsafe (List.replicate 16 0)) (List.replicate 32 0) =
      .error .InvalidStructure := by
  refine ⟨?_, ?_, ?_, ?_, ?_⟩
  · exact (C4_decrypt_ciphertext_errors toyAead [37] []
      (encode_urlsafe (List.replicate 12 0))
      (encode_urlsafe (List.replicate 16 0)) (List.replicate 32 0)).1
      (Or.inl (by decide))
  · exact (C4_decrypt_ciphertext_errors toyAead (encode_urlsafe [5]) []
      (encode_urlsafe [1, 2]) (encode_urlsafe (List.replicate 16 0))
      (List.replicate 32 0)).2.1 [1, 2] (by decide) (by decide)
  · exact (C4_decrypt_ciphertext_errors toyAead (encode_urlsafe [5]) []
      (encode_urlsafe (List.replicate 12 0)) (encode_urlsafe [1, 2, 3])
      (List.replicate 32 0)).2.2.1 [1, 2, 3] (by decide) (by decide)
  · exact (C4_decrypt_ciphertext_errors toyAead (encode_urlsafe [5]) []
      (encode_urlsafe (List.replicate 12 0))
      (encode_urlsafe (List.replicate 16 99)) (List.replicate 32 0)).2.2.2.1
      [5] (List.replicate 12 0) (List.replicate 16 99)
      (by decide) (by decide) (by decide) (by decide) (by decide) (by decide)
  · exact (C4_decrypt_ciphertext_errors toyAead (encode_urlsafe [0]) []
      (encode_urlsafe (List.replicate 12 0))
      (encode_urlsafe (List.replicate 16 0)) (List.replicate 32 0)).2.2.2.2
      [0] (List.replicate 12 0) (List.replicate 16 0) [255]
      (by decide) (by decide) (by decide) (by decide) (by decide) (by decide)
      (by decide)

/-- C8: decrypting the `(ciphertext, iv, tag)` triple that
`encrypt_plaintext` produced, with the same aad and cek, returns the
original plaintext (for byte-valued AEAD outputs of the spec-mandated
lengths, under the AEAD round-trip contract, for valid-UTF-8 plaintexts);
and any alteration after which the AEAD rejects — or that no longer even
decodes — yields an error. -/
theorem C8_encrypt_decrypt_roundtrip (A : Chacha20Poly1305)
    (nonce pt : RBytes) (aad : RStr) (cek : RBytes)
    (hct : ∀ b ∈ (A.encryptDetached pt aad nonce cek).1, b < 256)
    (htag : ∀ b ∈ (A.encryptDetached pt aad nonce cek).2, b < 256)
    (hnb : ∀ b ∈ nonce, b < 256)
    (hnl : nonce.length = 12)
    (htl : (A.encryptDetached pt aad nonce cek).2.length = 16)
    (hrt : A.decryptDetached (A.encryptDetached pt aad nonce cek).1 cek nonce
      (A.encryptDetached pt aad nonce cek).2 aad = some pt)
    (hutf : validUtf8 pt = true) :
    decrypt_ciphertext A (encrypt_plaintext A nonce pt aad cek).1 aad
      (encrypt_plaintext A nonce pt aad cek).2.1
      (encrypt_plaintext A nonce pt aad cek).2.2 cek = .ok pt ∧
    (∀ ct2 aad2 iv2 tag2 cek2,
      (∀ cb ib tb, decode_urlsafe ct2 = some cb →
        decode_urlsafe iv2 = some ib → decode_urlsafe tag2 = some tb →
        A.decryptDetached cb cek2 ib tb aad2 = none) →
      ∀ r, decrypt_ciphertext A ct2 aad2 iv2 tag2 cek2 ≠ .ok r) := by
  constructor
  · simp [encrypt_plaintext, decrypt_ciphertext,
      decode_urlsafe_encode_urlsafe _ hct,
      decode_urlsafe_encode_urlsafe _ htag,
      decode_urlsafe_encode_urlsafe _ hnb,
      chachaNonceFromSlice, hnl, chachaTagFromSlice, htl, hrt, hutf]
  · intro ct2 aad2 iv2 tag2 cek2 hnone r
    cases hc : decode_urlsafe ct2 with
    | none => simp [decrypt_ciphertext, hc]
    | some cb =>
      cases hi : decode_urlsafe iv2 with
      | none => simp [decrypt_ciphertext, hc, hi]
      | some ib =>
        by_cases hil : ib.length = 12
        · cases ht : decode_urlsafe tag2 with
          | none => simp [decrypt_ciphertext, hc, hi, chachaNonceFromSlice, hil, ht]
          | some tb =>
            by_cases htl2 : tb.length = 16
            · have hd := hnone cb ib tb hc hi ht
              simp [decrypt_ciphertext, hc, hi, chachaNonceFromSlice, hil, ht,
                chachaTagFromSlice, htl2, hd]
            · simp [decrypt_ciphertext, hc, hi, chachaNonceFromSlice, hil, ht,
                chachaTagFromSlice, htl2]
        · simp [decrypt_ciphertext, hc, hi, chachaNonceFromSlice, hil]

/-- C8 witness: the round trip at the plaintext `hi`, aad `a`, an all-3
nonce and an all-5 cek over the model AEAD. -/
theorem C8_witness :
    decrypt_ciphertext toyAead
      (encrypt_plaintext toyAead (List.replicate 12 3) [104, 105] [97]
        (List.replicate 32 5)).1 [97]
      (encrypt_plaintext toyAead (List.replicate 12 3) [104, 105] [97]
        (List.replicate 32 5)).2.1
      (encrypt_plaintext toyAead (List.replicate 12 3) [104, 105] [97]
        (List.replicate 32 5)).2.2 (List.replicate 32 5) = .ok [104, 105] :=
  (C8_encrypt_decrypt_roundtrip toyAead (List.replicate 12 3) [104, 105]
    [97] (List.replicate 32 5)
    (by decide) (by decide) (by decide) (by decide) (by decide) (by decide)
    (by decide)).1

/-- C9: `encrypt_plaintext` has no error branch: it is a total function
into string triples (its Lean type, mirroring the Rust signature, carries
no `Result`), the triple consisting exactly of the base64url encodings of
the detached ciphertext, the drawn nonce and the tag — each of which
decodes back to those bytes. -/
theorem C9_encrypt_plaintext_total (A : Chacha20Poly1305)
    (nonce pt : RBytes) (aad : RStr) (cek : RBytes)
    (hct : ∀ b ∈ (A.encryptDetached pt aad nonce cek).1, b < 256)
    (htag : ∀ b ∈ (A.encryptDetached pt aad nonce cek).2, b < 256)
    (hnb : ∀ b ∈ nonce, b < 256) :
    encrypt_plaintext A nonce pt aad cek =
      (encode_urlsafe (A.encryptDetached pt aad nonce cek).1,
        encode_urlsafe nonce,
        encode_urlsafe (A.encryptDetached pt aad nonce cek).2) ∧
    decode_urlsafe (encrypt_plaintext A nonce pt aad cek).1 =
      some (A.encryptDetached pt aad nonce cek).1 ∧
    decode_urlsafe (encrypt_plaintext A nonce pt aad cek).2.1 = some nonce ∧
    decode_urlsafe (encrypt_plaintext A nonce pt aad cek).2.2 =
      some (A.encryptDetached pt aad nonce cek).2 := by
  refine ⟨rfl, ?_, ?_, ?_⟩
  · exact decode_urlsafe_encode_urlsafe _ hct
  · exact decode_urlsafe_encode_urlsafe _ hnb
  · exact decode_urlsafe_encode_urlsafe _ htag

/-- C9 witness: the totality equation at concrete inputs over the model
AEAD. -/
theorem C9_witness :
    decode_urlsafe (encrypt_plaintext toyAead (List.replicate 12 3) [200]
      [97] (List.replicate 32 5)).2.1 = some (List.replicate 12 3) :=
  (C9_encrypt_plaintext_total toyAead (List.replicate 12 3) [200] [97]
    (List.replicate 32 5) (by decide) (by decide) (by decide)).2.2.1

end VcxCrypto
